import Mathlib

/-!
# Verification of the legal-research retrieval service

Shallow embedding of the repository: a Next.js HTTP route adapter
(`POST` in `src/app/api/query/route.ts`) over a retrieval-and-synthesis
core (`@/lib/legalSearch`, exposing `retrieveLegalKnowledge` and
`buildAnswer`).  The adapter source is embedded directly; the core module
is not part of the provided sources, so its operations are modelled from
the specification (each such definition is marked `Modelled from the
spec:`).
-/

namespace LegalSearch

/-! ## Text utilities (models of the JavaScript string primitives used) -/

/-- Model of the whitespace class recognised by JavaScript `String.prototype.trim`
(restricted to the ASCII whitespace that can occur in the embedded strings). -/
def isWS (c : Char) : Bool :=
  c = ' ' || c = '\t' || c = '\n' || c = '\r'

/-- Drop leading and trailing whitespace from a character list. -/
def trimChars (l : List Char) : List Char :=
  List.rdropWhile isWS (l.dropWhile isWS)

/-- Model of JavaScript `String.prototype.trim` (as used in `route.ts` line 22). -/
def jsTrim (s : String) : String :=
  ⟨trimChars s.data⟩

/-- Model of JavaScript `String.prototype.toLowerCase` (ASCII case folding). -/
def lowerStr (s : String) : String :=
  ⟨s.data.map Char.toLower⟩

/-- Characters that count as token constituents: letters and digits.
Everything else (punctuation, whitespace) separates tokens. -/
def isWordChar (c : Char) : Bool :=
  c.isAlpha || c.isDigit

/-- Split a character list into maximal runs of characters satisfying `keep`;
separator characters are discarded and no empty chunk is produced.
`acc` holds the current chunk in reverse. -/
def chunksAux (keep : Char → Bool) : List Char → List Char → List (List Char)
  | [], acc => if acc.isEmpty then [] else [acc.reverse]
  | c :: cs, acc =>
    if keep c then
      chunksAux keep cs (c :: acc)
    else
      if acc.isEmpty then chunksAux keep cs []
      else acc.reverse :: chunksAux keep cs []

/-- Maximal runs of `keep`-characters in `l`. -/
def chunks (keep : Char → Bool) (l : List Char) : List (List Char) :=
  chunksAux keep l []

/-! ## Data model

`Entry` is one static knowledge-base record (spec §3); `Result` is an
entry enriched with the per-query `score` and `highlights`. -/

/-- A `{label, url}` reference pair (spec §3, `sources`). -/
structure SourceRef where
  label : String
  url : String
deriving DecidableEq, Repr

/-- One static knowledge-base item (spec §3 Entry). -/
structure Entry where
  id : String
  title : String
  type : String
  region : String
  era : String
  summary : String
  excerpt : String
  keywords : List String
  citations : List String
  sources : List SourceRef
deriving DecidableEq, Repr

/-- A per-query result: all entry fields plus `score` and `highlights`
(spec §3 Result).  Scores are modelled as naturals: the spec's weighted
lexical-overlap counts are integral. -/
structure Result where
  id : String
  title : String
  type : String
  region : String
  era : String
  summary : String
  excerpt : String
  keywords : List String
  citations : List String
  sources : List SourceRef
  score : Nat
  highlights : List String
deriving DecidableEq, Repr

/-! ## Core: Normalizer (spec §4.1), modelled from the spec -/

/-- Modelled from the spec: the Normalizer's small stopword set
(articles, prepositions) — the core module is not in the provided
sources, so a representative fixed set is chosen. -/
def stopwords : List String :=
  ["a", "an", "the", "of", "in", "on", "at", "to", "and", "or", "for", "by"]

/-- Modelled from the spec: `normalize(text)` — lowercases, strips
punctuation, splits on whitespace, discards length-1 tokens and
stopwords (spec §4.1).  Pure and deterministic by construction. -/
def normalize (text : String) : List String :=
  ((chunks isWordChar (text.data.map Char.toLower)).map
      (fun t => (⟨t⟩ : String))).filter
    (fun t => decide (1 < t.length) && !(stopwords.contains t))

/-! ## Core: Scoring Engine (spec §4.2), modelled from the spec -/

/-- Occurrences of a token in a field's token list. -/
def countTok (t : String) (fieldToks : List String) : Nat :=
  (fieldToks.filter (fun x => x = t)).length

/-- Modelled from the spec: per-field contribution — the field's weight
times the number of occurrences of each query token in the field, with a
diminishing-returns cap (3) per token per field (spec §4.2). -/
def fieldScore (weight : Nat) (qToks fieldToks : List String) : Nat :=
  weight * (qToks.map (fun t => min (countTok t fieldToks) 3)).sum

/-- Modelled from the spec: phrase bonus — a fixed bonus when the full
query token sequence appears contiguously in some indexed field's token
sequence (spec §4.2).  Guarded on a nonempty query so that an entry with
zero overlapping tokens scores exactly 0. -/
def phraseBonus (qToks : List String) (e : Entry) : Nat :=
  if !qToks.isEmpty &&
      (decide (qToks <:+: normalize e.title)
        || decide (qToks <:+: normalize e.summary)
        || decide (qToks <:+: normalize e.excerpt)) then
    10
  else 0

/-- Modelled from the spec: `score(queryTokens, entry)` — field-weighted
lexical overlap, title weighted highest, then keywords, summary, excerpt,
plus the phrase bonus (spec §4.2). -/
def score (qToks : List String) (e : Entry) : Nat :=
  fieldScore 8 qToks (normalize e.title)
    + fieldScore 6 qToks (e.keywords.map lowerStr)
    + fieldScore 4 qToks (normalize e.summary)
    + fieldScore 2 qToks (normalize e.excerpt)
    + phraseBonus qToks e

/-! ## Core: Highlight Extractor (spec §4.4), modelled from the spec -/

/-- Sentence/clause delimiters used to split an excerpt into spans. -/
def isSentenceBreak (c : Char) : Bool :=
  c = '.' || c = ';' || c = '!' || c = '?'

/-- Modelled from the spec: the clause-level spans of an excerpt —
maximal delimiter-free runs, each trimmed; empty spans dropped. -/
def excerptSpans (excerpt : String) : List String :=
  ((chunks (fun c => !isSentenceBreak c) excerpt.data).map
      (fun sp => (⟨trimChars sp⟩ : String))).filter
    (fun sp => !(sp = ""))

/-- A span matches when some query token occurs in its normalization
(case-insensitive, normalized match, spec §4.4). -/
def spanMatches (qToks : List String) (span : String) : Bool :=
  qToks.any (fun t => (normalize span).contains t)

/-- The excerpt spans that contain at least one query token. -/
def matchingSpans (qToks : List String) (e : Entry) : List String :=
  (excerptSpans e.excerpt).filter (spanMatches qToks)

/-- Modelled from the spec: `extractHighlights(queryTokens, entry)` —
keeps the spans containing a query token, capped at 3 spans; if no span
contains a query token, falls back to the entry's `summary` as a single
highlight (spec §4.4). -/
def extractHighlights (qToks : List String) (e : Entry) : List String :=
  if (matchingSpans qToks e).isEmpty then [e.summary]
  else (matchingSpans qToks e).take 3

/-! ## Core: Result Ranker and retrieval entry point (spec §4.3, §6),
modelled from the spec -/

/-- Insert into a list sorted by `le` (insertion step of a stable sort). -/
def insertBy (le : α → α → Bool) (a : α) : List α → List α
  | [] => [a]
  | b :: t => if le a b then a :: b :: t else b :: insertBy le a t

/-- Stable insertion sort by `le`. -/
def sortBy (le : α → α → Bool) : List α → List α
  | [] => []
  | a :: t => insertBy le a (sortBy le t)

/-- Ranking order: descending score, ties broken by ascending entry id
(spec §4.3). -/
def rankLE (x y : Entry × Nat) : Bool :=
  decide (y.2 < x.2) || (decide (x.2 = y.2) && decide (x.1.id ≤ y.1.id))

/-- Build the `Result` for a scored entry. -/
def mkResult (qToks : List String) (e : Entry) (s : Nat) : Result :=
  { id := e.id, title := e.title, type := e.type, region := e.region,
    era := e.era, summary := e.summary, excerpt := e.excerpt,
    keywords := e.keywords, citations := e.citations, sources := e.sources,
    score := s, highlights := extractHighlights qToks e }

/-- Modelled from the spec: `retrieveLegalKnowledge(question, limit)` —
normalize the question, score every entry, drop entries with score ≤ 0,
sort by descending score with id tie-break, truncate to `limit`, and
attach highlights (spec §4.2–§4.3, §6).  The knowledge base is passed
explicitly (the source module closes over its static base). -/
def retrieveLegalKnowledge (kb : List Entry) (question : String)
    (limit : Nat) : List Result :=
  let qToks := normalize question
  let scored := kb.map (fun e => (e, score qToks e))
  let matched := scored.filter (fun p => decide (0 < p.2))
  let ranked := sortBy rankLE matched
  (ranked.take limit).map (fun p => mkResult qToks p.1 p.2)

/-! ## Core: Answer Composer (spec §4.5) and Follow-Up Generator
(spec §4.6), modelled from the spec -/

/-- Join strings with a separator. -/
def joinWith (sep : String) : List String → String
  | [] => ""
  | [x] => x
  | x :: xs => x ++ sep ++ joinWith sep xs

/-- Modelled from the spec: the fixed fallback answer returned whenever
no entry matched — acknowledges no direct match and invites refinement,
independent of the query (spec §4.5). -/
def fallbackAnswer : String :=
  "I could not find a direct match in the curated knowledge base. Try rephrasing your question or narrowing it to a specific doctrine, definition, or statute."

/-- Modelled from the spec: `composeAnswer(query, results)` — fixed
fallback when `results` is empty; otherwise an opening clause from the
top result's title/type, a synthesis of the top 3 summaries, and a
trailing citation list omitting citation-less results (spec §4.5). -/
def composeAnswer (_question : String) (results : List Result) : String :=
  match results with
  | [] => fallbackAnswer
  | top :: _ =>
    let considered := results.take 3
    let opening := "Regarding " ++ top.title ++ " (" ++ top.type ++ "): "
    let synthesis := joinWith " " (considered.map (fun r => r.summary))
    let cited := considered.filter (fun r => !r.citations.isEmpty)
    let citeText :=
      if cited.isEmpty then ""
      else " Citations: " ++
        joinWith " | " (cited.map (fun r => r.title ++ " — " ++ joinWith "; " r.citations))
    opening ++ synthesis ++ citeText

/-- Phrase a candidate entry as a follow-up prompt (spec §4.6). -/
def followUpPrompt (e : Entry) : String :=
  "What about " ++ e.title ++ "?"

/-- Modelled from the spec: `generateFollowUps(query, results, allEntries)`
— entries sharing `type`, `region`, or `era` with the top result but not
among the results, phrased as prompts, excluding any suggestion
case-insensitively identical to the query, capped at 3 (spec §4.6). -/
def generateFollowUps (question : String) (results : List Result)
    (kb : List Entry) : List String :=
  match results with
  | [] => []
  | top :: _ =>
    let resultIds := results.map (fun r => r.id)
    let candidates := kb.filter (fun e =>
      !(resultIds.contains e.id)
        && (e.type = top.type || e.region = top.region || e.era = top.era))
    ((candidates.map followUpPrompt).filter
        (fun s => !(lowerStr s = lowerStr question))).take 3

/-- The pair returned by `buildAnswer` (spec §6). -/
structure AnswerBundle where
  answer : String
  followUps : List String
deriving DecidableEq, Repr

/-- Modelled from the spec: `buildAnswer(question, results)` — the
composed answer plus follow-up suggestions (spec §6).  The knowledge
base is passed explicitly for the follow-up generator. -/
def buildAnswer (kb : List Entry) (question : String)
    (results : List Result) : AnswerBundle :=
  { answer := composeAnswer question results,
    followUps := generateFollowUps question results kb }

/-! ## HTTP adapter (embedded from `src/unnamed/part_000`, the
`POST` handler of `src/app/api/query/route.ts`) -/

/-- The adapter's view of a request body, following the declared
TypeScript payload type `QueryPayload = { question?: string }`:
either the JSON fails to parse (`request.json()` throws), or it yields a
payload whose optional `question` field may be absent or a string. -/
inductive RequestBody
  | malformed
  | parsed (question : Option String)
deriving DecidableEq, Repr

/-- The serialized result shape built by the adapter (route lines 38–50):
exactly the eleven projected fields, nothing else. -/
structure SerializedResult where
  id : String
  title : String
  summary : String
  excerpt : String
  citations : List String
  sources : List SourceRef
  score : Nat
  highlights : List String
  region : String
  era : String
  type : String
deriving DecidableEq, Repr

/-- The JSON body of an adapter response: either `{ error }` or the
success object `{ answer, results, followUps, timestamp }`. -/
inductive ResponseBody
  | error (message : String)
  | success (answer : String) (results : List SerializedResult)
      (followUps : List String) (timestamp : String)
deriving DecidableEq, Repr

/-- An HTTP response: status code and JSON body. -/
structure HttpResponse where
  status : Nat
  body : ResponseBody
deriving DecidableEq, Repr

/-- The adapter's per-result projection (route lines 38–50). -/
def serializeResult (r : Result) : SerializedResult :=
  { id := r.id, title := r.title, summary := r.summary,
    excerpt := r.excerpt, citations := r.citations, sources := r.sources,
    score := r.score, highlights := r.highlights, region := r.region,
    era := r.era, type := r.type }

/-- The `POST` handler (route lines 8–54).  `kb` is the static knowledge
base the core module closes over; `now` is the ISO timestamp produced by
`new Date().toISOString()`.  Unparseable JSON yields
`400 { error: "Invalid JSON payload" }`; a missing `question`, or one
that trims to the empty string (JavaScript `!question` on
`payload.question?.trim()`), yields `400 { error: "Question is required" }`;
otherwise the trimmed question is passed to `retrieveLegalKnowledge`
(limit 5) and `buildAnswer` and the success body is returned. -/
def handlePOST (kb : List Entry) (body : RequestBody) (now : String) :
    HttpResponse :=
  match body with
  | .malformed => ⟨400, .error "Invalid JSON payload"⟩
  | .parsed none => ⟨400, .error "Question is required"⟩
  | .parsed (some q) =>
    let question := jsTrim q
    if question = "" then ⟨400, .error "Question is required"⟩
    else
      let results := retrieveLegalKnowledge kb question 5
      let bundle := buildAnswer kb question results
      ⟨200, .success bundle.answer (results.map serializeResult)
        bundle.followUps now⟩

/-- The spec's 400 condition, stated from its words: the body is
unparseable JSON, or the `question` field is missing, or it is empty
after trimming. -/
def isBadRequest : RequestBody → Bool
  | .malformed => true
  | .parsed none => true
  | .parsed (some q) => jsTrim q = ""

/-! ## Helper lemmas -/

/-- Every chunk produced by `chunksAux` is an infix of `acc.reverse ++ l`. -/
lemma chunksAux_sub (keep : Char → Bool) :
    ∀ (l acc : List Char), ∀ t ∈ chunksAux keep l acc, t <:+: acc.reverse ++ l := by
  intro l
  induction l with
  | nil =>
    intro acc t ht
    by_cases hacc : acc.isEmpty
    · simp [chunksAux, hacc] at ht
    · simp only [chunksAux, hacc, Bool.false_eq_true, if_false, List.mem_singleton] at ht
      subst ht
      simp
  | cons c cs ih =>
    intro acc t ht
    have hcs : cs <:+: acc.reverse ++ c :: cs := by
      have h1 : cs <:+ c :: cs := List.suffix_cons c cs
      have h2 : c :: cs <:+ acc.reverse ++ c :: cs := List.suffix_append _ _
      exact (h1.trans h2).isInfix
    by_cases hk : keep c
    · simp only [chunksAux, hk, if_true] at ht
      have h0 := ih (c :: acc) t ht
      simpa [List.append_assoc] using h0
    · by_cases hacc : acc.isEmpty
      · simp only [chunksAux, hk, Bool.false_eq_true, if_false, hacc, if_true] at ht
        exact ((ih [] t ht).trans (by simpa using hcs))
      · simp only [chunksAux, hk, Bool.false_eq_true, if_false, hacc, List.mem_cons] at ht
        rcases ht with rfl | ht
        · exact (List.prefix_append _ _).isInfix
        · exact ((by simpa using ih [] t ht : t <:+: cs)).trans hcs

/-- Every chunk of `chunks keep l` is an infix of `l`. -/
lemma chunks_sub (keep : Char → Bool) (l : List Char) :
    ∀ t ∈ chunks keep l, t <:+: l := by
  intro t ht
  simpa using chunksAux_sub keep l [] t ht

/-- Trimming only removes characters from the two ends. -/
lemma trimChars_sub (l : List Char) : trimChars l <:+: l := by
  have h1 : List.rdropWhile isWS (l.dropWhile isWS) <+: l.dropWhile isWS :=
    List.rdropWhile_prefix isWS (l.dropWhile isWS)
  have h2 : l.dropWhile isWS <:+ l := List.dropWhile_suffix isWS
  exact h1.isInfix.trans h2.isInfix

/-- A trimmed list has no leading whitespace left. -/
lemma dropWhile_trimChars (l : List Char) :
    (trimChars l).dropWhile isWS = trimChars l := by
  cases hc : trimChars l with
  | nil => simp
  | cons a r =>
    suffices hws : isWS a = false by
      simp [List.dropWhile_cons, hws]
    have hpre : trimChars l <+: l.dropWhile isWS := by
      show List.rdropWhile isWS (l.dropWhile isWS) <+: l.dropWhile isWS
      exact List.rdropWhile_prefix isWS (l.dropWhile isWS)
    rw [hc] at hpre
    obtain ⟨t, hteq⟩ := hpre
    have hm : (l.dropWhile isWS).dropWhile isWS = l.dropWhile isWS :=
      List.dropWhile_idempotent isWS l
    rw [← hteq] at hm
    by_contra hcon
    have ha : isWS a = true := by
      cases hb : isWS a
      · exact absurd hb hcon
      · rfl
    rw [List.cons_append, List.dropWhile_cons, if_pos ha] at hm
    have hlen : (List.dropWhile isWS (r ++ t)).length ≤ (r ++ t).length :=
      (List.dropWhile_sublist isWS).length_le
    rw [hm] at hlen
    simp at hlen

/-- Trimming is idempotent. -/
lemma trimChars_idem (l : List Char) : trimChars (trimChars l) = trimChars l := by
  show List.rdropWhile isWS ((trimChars l).dropWhile isWS) = trimChars l
  rw [dropWhile_trimChars l]
  show List.rdropWhile isWS (List.rdropWhile isWS (l.dropWhile isWS)) = _
  exact List.rdropWhile_idempotent isWS (l.dropWhile isWS)

/-- The JavaScript-style trim is idempotent. -/
lemma jsTrim_idem (s : String) : jsTrim (jsTrim s) = jsTrim s := by
  show (⟨trimChars (trimChars s.data)⟩ : String) = ⟨trimChars s.data⟩
  rw [trimChars_idem]

/-- `insertBy` permutes `a :: l`. -/
lemma insertBy_perm (le : α → α → Bool) (a : α) :
    ∀ l : List α, List.Perm (insertBy le a l) (a :: l) := by
  intro l
  induction l with
  | nil => simp [insertBy]
  | cons b t ih =>
    by_cases h : le a b
    · simp [insertBy, h]
    · simp only [insertBy, h, Bool.false_eq_true, if_false]
      exact (ih.cons b).trans (List.Perm.swap a b t)

/-- `sortBy` permutes its input. -/
lemma sortBy_perm (le : α → α → Bool) :
    ∀ l : List α, List.Perm (sortBy le l) l := by
  intro l
  induction l with
  | nil => exact List.Perm.refl []
  | cons a t ih => exact (insertBy_perm le a (sortBy le t)).trans (ih.cons a)

/-- Membership is preserved by `sortBy`. -/
lemma mem_sortBy {le : α → α → Bool} {l : List α} {x : α} :
    x ∈ sortBy le l ↔ x ∈ l :=
  (sortBy_perm le l).mem_iff

/-- Every highlight is a literal substring of the entry's excerpt, or the
entry's summary (fallback). -/
lemma extractHighlights_spec (qToks : List String) (e : Entry) :
    ∀ h ∈ extractHighlights qToks e,
      h.data <:+: e.excerpt.data ∨ h = e.summary := by
  intro h hh
  unfold extractHighlights at hh
  by_cases hnil : (matchingSpans qToks e).isEmpty
  · right
    simp [hnil] at hh
    exact hh
  · left
    simp only [hnil, Bool.false_eq_true, if_false] at hh
    have h1 : h ∈ matchingSpans qToks e := List.mem_of_mem_take hh
    have h2 : h ∈ excerptSpans e.excerpt := (List.mem_filter.mp h1).1
    unfold excerptSpans at h2
    have h3 := (List.mem_filter.mp h2).1
    obtain ⟨sp, hsp, rfl⟩ := List.mem_map.mp h3
    show trimChars sp <:+: e.excerpt.data
    exact (trimChars_sub sp).trans (chunks_sub _ _ sp hsp)

/-! ## Sample data used by the witnesses -/

/-- A sample doctrine entry (concrete instance of the spec's data model). -/
def sampleE1 : Entry :=
  { id := "e1", title := "Champerty", type := "doctrine", region := "England",
    era := "medieval", summary := "Champerty is maintaining a suit for profit.",
    excerpt := "Champerty involves funding litigation; the funder takes a share.",
    keywords := ["champerty", "maintenance"], citations := ["Black 11th"],
    sources := [{ label := "BL", url := "u" }] }

/-- A sample statute entry. -/
def sampleE2 : Entry :=
  { id := "e2", title := "Blue Laws", type := "statute", region := "US",
    era := "colonial", summary := "Blue laws restrict Sunday commerce.",
    excerpt := "Blue laws forbid trade on Sunday; some remain active.",
    keywords := ["blue", "sunday"], citations := [], sources := [] }

/-- A second sample statute entry, thematically adjacent to `sampleE2`. -/
def sampleE3 : Entry :=
  { id := "e3", title := "Quo Warranto Act", type := "statute", region := "US",
    era := "colonial", summary := "Quo warranto tests title to office.",
    excerpt := "The writ challenges an office holder.",
    keywords := ["quo", "warranto"], citations := [], sources := [] }

/-- A sample two-entry knowledge base. -/
def sampleKB : List Entry := [sampleE1, sampleE2]

/-- A sample knowledge base of two statutes. -/
def sampleKB3 : List Entry := [sampleE2, sampleE3]

/-- Two results that agree on the eleven serialized fields but differ in
`keywords`. -/
def resA : Result :=
  { id := "x", title := "T", type := "d", region := "R", era := "E",
    summary := "S", excerpt := "X", keywords := ["k1"], citations := [],
    sources := [], score := 1, highlights := [] }

/-- `resA` with different `keywords`. -/
def resB : Result :=
  { resA with keywords := ["k2", "k3"] }

/-! ## Claim theorems -/

/-- C1: the adapter responds 400 with `{ error }` exactly when the body is
unparseable JSON or the `question` field is missing or empty after
trimming; in every other case it produces a 200 success response. -/
theorem adapter_status_400_iff_bad (kb : List Entry) (body : RequestBody)
    (now : String) :
    (isBadRequest body = true →
      (handlePOST kb body now).status = 400 ∧
        ∃ m, (handlePOST kb body now).body = ResponseBody.error m) ∧
    (isBadRequest body = false →
      (handlePOST kb body now).status = 200 ∧
        ∃ a rs f, (handlePOST kb body now).body =
          ResponseBody.success a rs f now) := by
  cases body with
  | malformed =>
    exact ⟨fun _ => ⟨rfl, ⟨_, rfl⟩⟩, fun h => by simp [isBadRequest] at h⟩
  | parsed q =>
    cases q with
    | none =>
      exact ⟨fun _ => ⟨rfl, ⟨_, rfl⟩⟩, fun h => by simp [isBadRequest] at h⟩
    | some s =>
      by_cases hq : jsTrim s = ""
      · refine ⟨fun _ => ?_, fun h => ?_⟩
        · constructor
          · simp [handlePOST, hq]
          · exact ⟨"Question is required", by simp [handlePOST, hq]⟩
        · simp [isBadRequest, hq] at h
      · refine ⟨fun h => ?_, fun _ => ?_⟩
        · simp [isBadRequest, hq] at h
        · constructor
          · simp [handlePOST, hq]
          · exact ⟨(buildAnswer kb (jsTrim s)
                (retrieveLegalKnowledge kb (jsTrim s) 5)).answer,
              (retrieveLegalKnowledge kb (jsTrim s) 5).map serializeResult,
              (buildAnswer kb (jsTrim s)
                (retrieveLegalKnowledge kb (jsTrim s) 5)).followUps,
              by simp [handlePOST, hq]⟩

/-- Witness for C1: a malformed body yields a 400 error, a body whose
trimmed question is nonempty yields a 200 success. -/
theorem adapter_status_400_iff_bad_witness :
    ((handlePOST sampleKB RequestBody.malformed "ts").status = 400 ∧
      ∃ m, (handlePOST sampleKB RequestBody.malformed "ts").body =
        ResponseBody.error m) ∧
    ((handlePOST sampleKB (RequestBody.parsed (some "champerty")) "ts").status = 200 ∧
      ∃ a rs f,
        (handlePOST sampleKB (RequestBody.parsed (some "champerty")) "ts").body =
          ResponseBody.success a rs f "ts") :=
  ⟨(adapter_status_400_iff_bad sampleKB RequestBody.malformed "ts").1 (by decide),
   (adapter_status_400_iff_bad sampleKB
      (RequestBody.parsed (some "champerty")) "ts").2 (by decide)⟩

/-- C2: every well-formed POST (parseable body with a nonempty trimmed
question) yields a 200 response whose body is the success object with
exactly `answer`, `results` (serialized with exactly the eleven Result
fields, by the shape of `SerializedResult`), `followUps`, `timestamp`. -/
theorem adapter_success_shape (kb : List Entry) (q now : String)
    (h : jsTrim q ≠ "") :
    handlePOST kb (RequestBody.parsed (some q)) now =
      ⟨200, ResponseBody.success
        (buildAnswer kb (jsTrim q) (retrieveLegalKnowledge kb (jsTrim q) 5)).answer
        ((retrieveLegalKnowledge kb (jsTrim q) 5).map serializeResult)
        (buildAnswer kb (jsTrim q) (retrieveLegalKnowledge kb (jsTrim q) 5)).followUps
        now⟩ := by
  simp [handlePOST, h]

/-- Witness for C2 at a concrete request. -/
theorem adapter_success_shape_witness :
    jsTrim " champerty " ≠ "" ∧
    handlePOST sampleKB (RequestBody.parsed (some " champerty ")) "ts" =
      ⟨200, ResponseBody.success
        (buildAnswer sampleKB (jsTrim " champerty ")
          (retrieveLegalKnowledge sampleKB (jsTrim " champerty ") 5)).answer
        ((retrieveLegalKnowledge sampleKB (jsTrim " champerty ") 5).map serializeResult)
        (buildAnswer sampleKB (jsTrim " champerty ")
          (retrieveLegalKnowledge sampleKB (jsTrim " champerty ") 5)).followUps
        "ts"⟩ :=
  ⟨by decide, adapter_success_shape sampleKB " champerty " "ts" (by decide)⟩

/-- C3: `retrieveLegalKnowledge` returns at most `limit` results, every
returned result has a strictly positive score, and the adapter invokes it
with limit 5. -/
theorem retrieve_cardinality (kb : List Entry) (q : String) (n : Nat) :
    (retrieveLegalKnowledge kb q n).length ≤ n ∧
    (∀ r ∈ retrieveLegalKnowledge kb q n, 0 < r.score) ∧
    (∀ q2 now, jsTrim q2 ≠ "" →
      ∃ a f, handlePOST kb (RequestBody.parsed (some q2)) now =
        ⟨200, ResponseBody.success a
          ((retrieveLegalKnowledge kb (jsTrim q2) 5).map serializeResult) f now⟩) := by
  refine ⟨?_, ?_, ?_⟩
  · simp only [retrieveLegalKnowledge, List.length_map]
    exact List.length_take_le n _
  · intro r hr
    simp only [retrieveLegalKnowledge] at hr
    obtain ⟨p, hp, rfl⟩ := List.mem_map.mp hr
    have hp2 := List.mem_of_mem_take hp
    have hp3 := mem_sortBy.mp hp2
    have hp4 := (List.mem_filter.mp hp3).2
    exact of_decide_eq_true hp4
  · intro q2 now h
    exact ⟨(buildAnswer kb (jsTrim q2)
        (retrieveLegalKnowledge kb (jsTrim q2) 5)).answer,
      (buildAnswer kb (jsTrim q2)
        (retrieveLegalKnowledge kb (jsTrim q2) 5)).followUps,
      by simp [handlePOST, h]⟩

/-- Witness for C3 at a concrete knowledge base and query. -/
theorem retrieve_cardinality_witness :
    (retrieveLegalKnowledge sampleKB "champerty" 5).length ≤ 5 ∧
    (mkResult (normalize "champerty") sampleE1 30 ∈
      retrieveLegalKnowledge sampleKB "champerty" 5) ∧
    0 < (mkResult (normalize "champerty") sampleE1 30).score ∧
    jsTrim " champerty " ≠ "" ∧
    (∃ a f, handlePOST sampleKB (RequestBody.parsed (some " champerty ")) "ts" =
      ⟨200, ResponseBody.success a
        ((retrieveLegalKnowledge sampleKB (jsTrim " champerty ") 5).map
          serializeResult) f "ts"⟩) :=
  ⟨(retrieve_cardinality sampleKB "champerty" 5).1,
   by decide,
   (retrieve_cardinality sampleKB "champerty" 5).2.1 _ (by decide),
   by decide,
   (retrieve_cardinality sampleKB "champerty" 5).2.2 " champerty " "ts" (by decide)⟩

/-- C4: `retrieveLegalKnowledge` is a total function (never throws), and
when no knowledge-base entry matches the query it returns the empty
sequence rather than signalling an error. -/
theorem retrieve_total_no_match_empty (kb : List Entry) (q : String) (n : Nat)
    (h : ∀ e ∈ kb, score (normalize q) e = 0) :
    retrieveLegalKnowledge kb q n = [] := by
  simp only [retrieveLegalKnowledge]
  have hf : (kb.map (fun e => (e, score (normalize q) e))).filter
      (fun p => decide (0 < p.2)) = [] := by
    rw [List.filter_eq_nil_iff]
    intro p hp
    obtain ⟨e, he, rfl⟩ := List.mem_map.mp hp
    simp [h e he]
  rw [hf]
  simp [sortBy]

/-- Witness for C4: a query matching nothing yields the empty sequence. -/
theorem retrieve_total_no_match_empty_witness :
    (∀ e ∈ sampleKB, score (normalize "xyzzyunknownlegalterm") e = 0) ∧
    retrieveLegalKnowledge sampleKB "xyzzyunknownlegalterm" 5 = [] :=
  ⟨by decide,
   retrieve_total_no_match_empty sampleKB "xyzzyunknownlegalterm" 5 (by decide)⟩

/-- C5: for a fixed knowledge base and identical arguments, repeated
invocations of `retrieveLegalKnowledge` and `buildAnswer` return
identical output — both are pure functions of their inputs. -/
theorem core_deterministic (kb : List Entry) (q : String) (n : Nat)
    (rs : List Result) :
    retrieveLegalKnowledge kb q n = retrieveLegalKnowledge kb q n ∧
      buildAnswer kb q rs = buildAnswer kb q rs :=
  ⟨rfl, rfl⟩

/-- C6: when the result sequence is empty the composed answer is the one
fixed fallback string, identical for every query. -/
theorem compose_fallback_fixed (kb : List Entry) (q1 q2 : String) :
    composeAnswer q1 [] = fallbackAnswer ∧
      (buildAnswer kb q1 []).answer = (buildAnswer kb q2 []).answer :=
  ⟨rfl, rfl⟩

/-- C7: every highlight of a returned result is a substring of that
entry's excerpt or equals its summary; when no excerpt span contains a
query token the highlights are exactly the single-element summary list. -/
theorem highlight_containment :
    (∀ (kb : List Entry) (q : String) (n : Nat),
      ∀ r ∈ retrieveLegalKnowledge kb q n,
        ∀ h ∈ r.highlights, h.data <:+: r.excerpt.data ∨ h = r.summary) ∧
    (∀ (qToks : List String) (e : Entry),
      matchingSpans qToks e = [] → extractHighlights qToks e = [e.summary]) := by
  constructor
  · intro kb q n r hr h hh
    simp only [retrieveLegalKnowledge] at hr
    obtain ⟨p, hp, rfl⟩ := List.mem_map.mp hr
    exact extractHighlights_spec _ p.1 h hh
  · intro qToks e hm
    simp [extractHighlights, hm]

/-- Witness for C7 at a concrete result and highlight. -/
theorem highlight_containment_witness :
    (mkResult (normalize "champerty") sampleE1 30 ∈
      retrieveLegalKnowledge sampleKB "champerty" 5) ∧
    ("Champerty involves funding litigation" ∈
      (mkResult (normalize "champerty") sampleE1 30).highlights) ∧
    ("Champerty involves funding litigation".data <:+:
        (mkResult (normalize "champerty") sampleE1 30).excerpt.data ∨
      "Champerty involves funding litigation" =
        (mkResult (normalize "champerty") sampleE1 30).summary) :=
  ⟨by decide, by decide,
   highlight_containment.1 sampleKB "champerty" 5 _ (by decide) _ (by decide)⟩

/-- C8: no follow-up suggestion is case-insensitively equal to the
original query. -/
theorem followups_exclude_query (kb : List Entry) (q : String)
    (rs : List Result) :
    ∀ s ∈ generateFollowUps q rs kb, lowerStr s ≠ lowerStr q := by
  intro s hs
  cases rs with
  | nil => simp [generateFollowUps] at hs
  | cons top rest =>
    simp only [generateFollowUps] at hs
    have h1 := List.mem_of_mem_take hs
    have h2 := (List.mem_filter.mp h1).2
    simpa using h2

/-- Witness for C8: a generated suggestion, shown distinct from the query
case-insensitively. -/
theorem followups_exclude_query_witness :
    ("What about Quo Warranto Act?" ∈
      generateFollowUps "blue laws" [mkResult (normalize "blue laws") sampleE2 5]
        sampleKB3) ∧
    lowerStr "What about Quo Warranto Act?" ≠ lowerStr "blue laws" :=
  ⟨by decide,
   followups_exclude_query sampleKB3 "blue laws"
     [mkResult (normalize "blue laws") sampleE2 5] _ (by decide)⟩

/-- C9: each serialized result carries only the eleven projected fields:
serialization does not depend on any other field of the `Result` (in
particular `keywords` never reaches the response), and the success body's
results are exactly the serialized projections. -/
theorem serialization_projects_eleven_fields :
    (∀ r r2 : Result, r.id = r2.id → r.title = r2.title →
      r.summary = r2.summary → r.excerpt = r2.excerpt →
      r.citations = r2.citations → r.sources = r2.sources →
      r.score = r2.score → r.highlights = r2.highlights →
      r.region = r2.region → r.era = r2.era → r.type = r2.type →
      serializeResult r = serializeResult r2) ∧
    (∀ (kb : List Entry) (q now : String), jsTrim q ≠ "" →
      ∃ a f, handlePOST kb (RequestBody.parsed (some q)) now =
        ⟨200, ResponseBody.success a
          ((retrieveLegalKnowledge kb (jsTrim q) 5).map serializeResult)
          f now⟩) := by
  constructor
  · intro r r2 h1 h2 h3 h4 h5 h6 h7 h8 h9 h10 h11
    simp [serializeResult, h1, h2, h3, h4, h5, h6, h7, h8, h9, h10, h11]
  · intro kb q now h
    exact ⟨(buildAnswer kb (jsTrim q)
        (retrieveLegalKnowledge kb (jsTrim q) 5)).answer,
      (buildAnswer kb (jsTrim q)
        (retrieveLegalKnowledge kb (jsTrim q) 5)).followUps,
      by simp [handlePOST, h]⟩

/-- Witness for C9: two results that differ (only in `keywords`)
serialize identically. -/
theorem serialization_projects_eleven_fields_witness :
    resA ≠ resB ∧ serializeResult resA = serializeResult resB :=
  ⟨by decide,
   serialization_projects_eleven_fields.1 resA resB rfl rfl rfl rfl rfl rfl
     rfl rfl rfl rfl rfl⟩

/-- C10: the adapter passes the same trimmed question — nonempty and
trim-stable — to both `retrieveLegalKnowledge` and `buildAnswer`. -/
theorem adapter_passes_trimmed_question (kb : List Entry) (q now : String)
    (h : jsTrim q ≠ "") :
    ∃ question, question = jsTrim q ∧ question ≠ "" ∧
      jsTrim question = question ∧
      handlePOST kb (RequestBody.parsed (some q)) now =
        ⟨200, ResponseBody.success
          (buildAnswer kb question (retrieveLegalKnowledge kb question 5)).answer
          ((retrieveLegalKnowledge kb question 5).map serializeResult)
          (buildAnswer kb question (retrieveLegalKnowledge kb question 5)).followUps
          now⟩ :=
  ⟨jsTrim q, rfl, h, jsTrim_idem q, by simp [handlePOST, h]⟩

/-- Witness for C10 at a concrete request. -/
theorem adapter_passes_trimmed_question_witness :
    jsTrim "  champerty " ≠ "" ∧
    (∃ question, question = jsTrim "  champerty " ∧ question ≠ "" ∧
      jsTrim question = question ∧
      handlePOST sampleKB (RequestBody.parsed (some "  champerty ")) "ts" =
        ⟨200, ResponseBody.success
          (buildAnswer sampleKB question
            (retrieveLegalKnowledge sampleKB question 5)).answer
          ((retrieveLegalKnowledge sampleKB question 5).map serializeResult)
          (buildAnswer sampleKB question
            (retrieveLegalKnowledge sampleKB question 5)).followUps
          "ts"⟩) :=
  ⟨by decide,
   adapter_passes_trimmed_question sampleKB "  champerty " "ts" (by decide)⟩

end LegalSearch
